import Mathlib

/-!
Verification development for the Tudat acceleration-model composition and
evaluation engine, together with the state-derivative assembly and
propagation loop that consumes it.

The development shallowly embeds the data model and operations of the
engine.  Real-valued physics (inverse-square gravity) is modelled over ℝ;
bookkeeping that the engine performs exactly (model construction, caching,
history recording, coefficient addition) is modelled over ℚ so that it is
fully executable.
-/

namespace Tudat

/-- A 3-vector of reals (Cartesian position / acceleration components). -/
abbrev Vec3 := Fin 3 → ℝ

/-- Cube of the Euclidean norm of a 3-vector. -/
noncomputable def normCube (v : Vec3) : ℝ :=
Real.sqrt (v 0 ^ 2 + v 1 ^ 2 + v 2 ^ 2) ^ 3

/-- Modelled from the spec: the central point-mass acceleration
`−μ·r̂/|r|²` with `r` the vector from the exerting to the exerted-on body
(`CentralGravitationalAccelerationModel`, absent from the sources; only its
callers in the acceleration-model setup test are available). -/
noncomputable def pointMassAccel (mu : ℝ) (posTarget posExerter : Vec3) : Vec3 :=
fun i => -mu * (posTarget i - posExerter i) / normCube (fun j => posTarget j - posExerter j)

/-- Modelled from the spec: one term of the spherical-harmonics acceleration
series.  The spec fixes only the degenerate degree-0, order-0 term — the
gradient of `C̄₀₀·μ/r`, i.e. the central point-mass acceleration scaled by
the (0,0) cosine coefficient; the terms of positive degree or order are an
arbitrary parameter `higher` of the embedding
(`SphericalHarmonicsGravitationalAccelerationModel` is absent from the
sources; only its callers in the setup test are available). -/
noncomputable def shTerm (higher : ℕ → ℕ → Vec3) (mu : ℝ) (cosineCoefficients : ℕ → ℕ → ℝ)
    (posTarget posExerter : Vec3) : ℕ → ℕ → Vec3
| 0, 0 => fun i =>
    -(cosineCoefficients 0 0 * mu) * (posTarget i - posExerter i) /
      normCube (fun j => posTarget j - posExerter j)
| n, m => higher n m

/-- Modelled from the spec: the spherical-harmonics acceleration evaluates
the gradient of the harmonic potential series using the coefficient
matrices up to a configured maximum degree and order (order ≤ degree and
order ≤ maximum order contribute). -/
noncomputable def shAccel (higher : ℕ → ℕ → Vec3) (mu : ℝ) (cosineCoefficients : ℕ → ℕ → ℝ)
    (maxDeg maxOrd : ℕ) (posTarget posExerter : Vec3) : Vec3 :=
∑ n in Finset.range (maxDeg + 1), ∑ m in Finset.range (min n maxOrd + 1),
  shTerm higher mu cosineCoefficients posTarget posExerter n m

/-- A body as the acceleration-model map builder sees it: gravitational
parameter, current position and (for harmonic fields) cosine coefficients. -/
structure Body where
  mu : ℝ
  pos : Vec3
  cosineCoefficients : ℕ → ℕ → ℝ

/-- Declarative acceleration-settings request (effect type plus
type-specific parameters). -/
inductive AccelerationSettings where
  | centralGravity : AccelerationSettings
  | sphericalHarmonic (maxDeg maxOrd : ℕ) : AccelerationSettings

/-- A constructed acceleration model: central point-mass,
spherical-harmonics, or a third-body wrapper around two sub-models. -/
inductive AccelModel where
  | pointMass (mu : ℝ) (posTarget posExerter : Vec3) : AccelModel
  | sphericalHarmonics (mu : ℝ) (cosineCoefficients : ℕ → ℕ → ℝ)
      (maxDeg maxOrd : ℕ) (posTarget posExerter : Vec3) : AccelModel
  | thirdBody (direct central : AccelModel) : AccelModel

/-- Modelled from the spec: the acceleration value of a constructed model.
A third-body wrapper's value is the direct sub-model's acceleration minus
the central-body sub-model's acceleration. -/
noncomputable def AccelModel.eval (higher : ℕ → ℕ → Vec3) : AccelModel → Vec3
  | .pointMass mu pT pE => pointMassAccel mu pT pE
  | .sphericalHarmonics mu c N M pT pE => shAccel higher mu c N M pT pE
  | .thirdBody d c => fun i => d.eval higher i - c.eval higher i

/-- Name of the barycentric / inertial origin used as a central-body
marker ("SSB" in the setup test). -/
def inertialOrigin : String := "SSB"

/-- Modelled from the spec: the gravitational parameter the builder gives a
direct model — when the exerting body is the configured central body of the
target, μ(exerter) + μ(target); otherwise μ(exerter) alone. -/
def combinedMu (bodyOf : String → Body) (target exerter central : String) : ℝ :=
if exerter = central then (bodyOf exerter).mu + (bodyOf target).mu else (bodyOf exerter).mu

/-- Modelled from the spec: construction of the direct (unwrapped)
acceleration model for one settings entry, wiring in the combined-mass
correction. -/
def mkDirect (bodyOf : String → Body) (target exerter central : String) :
    AccelerationSettings → AccelModel
  | .centralGravity =>
      .pointMass (combinedMu bodyOf target exerter central)
        (bodyOf target).pos (bodyOf exerter).pos
  | .sphericalHarmonic N M =>
      .sphericalHarmonics (combinedMu bodyOf target exerter central)
        (bodyOf exerter).cosineCoefficients N M
        (bodyOf target).pos (bodyOf exerter).pos

/-- Modelled from the spec: construction of the acceleration model for one
settings entry of the acceleration-model map builder
(`createAccelerationModelsMap` is absent from the sources; only its callers
in the setup test are available).  If the target's central body is neither
the inertial origin nor the exerting body, the direct model is wrapped in a
third-body acceleration whose central sub-model is the central body's
direct model of the same settings against the same exerter. -/
def createAccelerationModel (bodyOf : String → Body) (target exerter central : String)
    (s : AccelerationSettings) : AccelModel :=
if central = inertialOrigin ∨ central = exerter then
  mkDirect bodyOf target exerter central s
else
  .thirdBody (mkDirect bodyOf target exerter central s)
    (mkDirect bodyOf central exerter central s)

/-- Modelled from the spec: the acceleration-model map builder — each
settings entry of the input map is replaced by a constructed acceleration
model, the key structure kept identical. -/
def createAccelerationModelsMap (bodyOf : String → Body)
    (settings : List (String × String × AccelerationSettings))
    (centralOf : String → String) : List (String × String × AccelModel) :=
settings.map fun x => (x.1, x.2.1, createAccelerationModel bodyOf x.1 x.2.1 (centralOf x.1) x.2.2)

/-- Cached state of an acceleration model: the time of the last update (if
any) and the last computed acceleration (exact components). -/
structure AccelerationModelState where
  currentTime : Option ℚ
  currentAcceleration : Fin 3 → ℚ

/-- Modelled from the spec: `update(time)` of an acceleration model — if
already updated at this exact time, no-op; otherwise recompute the stored
acceleration from the dependency bodies' states (here a function of the
time, the dependency states being fixed). -/
def updateModel (computeAcceleration : ℚ → Fin 3 → ℚ) (t : ℚ)
    (s : AccelerationModelState) : AccelerationModelState :=
if s.currentTime = some t then s
else { currentTime := some t, currentAcceleration := computeAcceleration t }

/-- `getAcceleration()` returns the last computed vector without
recomputation. -/
def getAcceleration (s : AccelerationModelState) : Fin 3 → ℚ :=
s.currentAcceleration

/-- Modelled from the spec: `updateAndGetAcceleration` updates the model to
the given time and reads back the stored acceleration. -/
def updateAndGetAcceleration (computeAcceleration : ℚ → Fin 3 → ℚ) (t : ℚ)
    (s : AccelerationModelState) : AccelerationModelState × (Fin 3 → ℚ) :=
(updateModel computeAcceleration t s,
  getAcceleration (updateModel computeAcceleration t s))

/-- An aerodynamic coefficient interface: force and moment coefficients as
functions of the body's independent variables, plus a named list of
control-surface increment interfaces, each consuming its surface-specific
independent variables and yielding a 6-vector (3 force + 3 moment)
increment. -/
structure AeroCoefficientInterface where
  forceCoefficients : List ℚ → Fin 3 → ℚ
  momentCoefficients : List ℚ → Fin 3 → ℚ
  controlSurfaceIncrements : List (String × (List ℚ → Fin 6 → ℚ))

/-- Modelled from the spec: the current force coefficients after
`updateFullCurrentCoefficients` — the interface's own coefficients at the
body independent variables plus, additively, components 0–2 of every
installed control surface's increment at that surface's independent
variables. -/
def currentForceCoefficients (ifc : AeroCoefficientInterface) (indep : List ℚ)
    (surfaceIndep : String → List ℚ) (i : Fin 3) : ℚ :=
ifc.forceCoefficients indep i +
  (ifc.controlSurfaceIncrements.map fun p => p.2 (surfaceIndep p.1) ⟨i.val, by omega⟩).sum

/-- Modelled from the spec: the current moment coefficients after
`updateFullCurrentCoefficients` — as for the force coefficients, with
components 3–5 of each increment added. -/
def currentMomentCoefficients (ifc : AeroCoefficientInterface) (indep : List ℚ)
    (surfaceIndep : String → List ℚ) (i : Fin 3) : ℚ :=
ifc.momentCoefficients indep i +
  (ifc.controlSurfaceIncrements.map fun p => p.2 (surfaceIndep p.1) ⟨i.val + 3, by omega⟩).sum

/-- An aerodynamic angle calculator holding the optionally bound
orientation-angle accessor functions (angle of attack, angle of sideslip,
bank angle), each a function of the current time. -/
structure AngleCalculator where
  angleOfAttackFunction : Option (ℚ → ℚ)
  angleOfSideslipFunction : Option (ℚ → ℚ)
  bankAngleFunction : Option (ℚ → ℚ)

/-- Modelled from the spec: reading an orientation angle — an unbound
(empty) accessor function yields zero. -/
def getOrientationAngle : Option (ℚ → ℚ) → ℚ → ℚ
  | none, _ => 0
  | some f, t => f t

/-- Vehicle systems: the current control-surface deflections, keyed by
surface name. -/
structure VehicleSystems where
  controlSurfaceDeflections : List (String × ℚ)

/-- Modelled from the spec: `setCurrentControlSurfaceDeflection` stores the
deflection for the named surface, replacing any previous value. -/
def setCurrentControlSurfaceDeflection (vs : VehicleSystems) (name : String)
    (deflection : ℚ) : VehicleSystems :=
⟨(name, deflection) :: vs.controlSurfaceDeflections.filter (fun p => p.1 != name)⟩

/-- Modelled from the spec: reading back the named surface's current
deflection. -/
def getCurrentControlSurfaceDeflection (vs : VehicleSystems) (name : String) : ℚ :=
match vs.controlSurfaceDeflections.find? (fun p => p.1 == name) with
  | some p => p.2
  | none => 0

/-- The deterministic control-surface deflection law of the dummy guidance
system: deflection(t) = −0.02 + 0.04·t/1000. -/
def surfaceDeflectionLaw (t : ℚ) : ℚ :=
-(2 / 100) + (4 / 100) * t / 1000

/-- The deterministic angle-of-attack law of the dummy guidance system:
α(t) = 0.3·(1 − t/1000). -/
def dummyAngleOfAttackLaw (t : ℚ) : ℚ :=
(3 / 10) * (1 - t / 1000)

/-- Modelled from the spec: the dummy guidance system's per-step update —
it sets the "TestSurface" control-surface deflection from the prescribed
time law. -/
def updateGuidance (t : ℚ) (vs : VehicleSystems) : VehicleSystems :=
setCurrentControlSurfaceDeflection vs "TestSurface" (surfaceDeflectionLaw t)

/-- The values of all aerodynamic dependent variables of the vehicle at one
instant of a propagation. -/
structure AeroEnv where
  machNumber : ℚ
  angleOfAttack : ℚ
  angleOfSideslip : ℚ
  surfaceDeflection : ℚ
  momentCoefficientValues : Fin 3 → ℚ
  forceCoefficientValues : Fin 3 → ℚ

/-- Dependent-variable request vocabulary (the tags used in the
control-surface propagation test). -/
inductive DepVarRequest where
  | machNumber : DepVarRequest
  | angleOfAttack : DepVarRequest
  | angleOfSideslip : DepVarRequest
  | controlSurfaceDeflection (surface : String) : DepVarRequest
  | momentCoefficients : DepVarRequest
  | forceCoefficients : DepVarRequest

/-- Modelled from the spec: the value list a single dependent-variable
request resolves to (scalar tags give one entry, coefficient tags three). -/
def evalDepVar (env : AeroEnv) : DepVarRequest → List ℚ
  | .machNumber => [env.machNumber]
  | .angleOfAttack => [env.angleOfAttack]
  | .angleOfSideslip => [env.angleOfSideslip]
  | .controlSurfaceDeflection _ => [env.surfaceDeflection]
  | .momentCoefficients =>
      [env.momentCoefficientValues 0, env.momentCoefficientValues 1,
        env.momentCoefficientValues 2]
  | .forceCoefficients =>
      [env.forceCoefficientValues 0, env.forceCoefficientValues 1,
        env.forceCoefficientValues 2]

/-- The dependent-variable requests declared in the control-surface
propagation test, in declaration order. -/
def testDependentVariables : List DepVarRequest :=
[.machNumber, .angleOfAttack, .angleOfSideslip,
  .controlSurfaceDeflection "TestSurface", .momentCoefficients, .forceCoefficients]

/-- Modelled from the spec: a recorded history entry is the concatenation
of all requested variables' values, in request order. -/
def assembleEntry (env : AeroEnv) (requests : List DepVarRequest) : List ℚ :=
(requests.map (evalDepVar env)).flatten

/-- Modelled from the spec: the full environment update at a given time —
orientation angles are read from the angle calculator's bound accessors,
the control-surface deflection from the vehicle systems after the guidance
update, and the flight-condition quantities (Mach number, coefficient
values) from the current integration state. -/
def environmentAt {σ : Type} (angleCalc : AngleCalculator) (machOf : σ → ℚ)
    (momentOf forceOf : σ → Fin 3 → ℚ) (t : ℚ) (s : σ) (vs : VehicleSystems) : AeroEnv :=
{ machNumber := machOf s
, angleOfAttack := getOrientationAngle angleCalc.angleOfAttackFunction t
, angleOfSideslip := getOrientationAngle angleCalc.angleOfSideslipFunction t
, surfaceDeflection := getCurrentControlSurfaceDeflection vs "TestSurface"
, momentCoefficientValues := momentOf s
, forceCoefficientValues := forceOf s }

/-- Modelled from the spec: the propagation loop — starting from time `t`
and state `s`, it repeatedly advances one step of size `dt` via the
external stepper, updates the environment (guidance, angle calculator) to
the post-step time, evaluates and records all requested dependent variables
at the post-step state and time, for `n` accepted steps; it returns the
state history and the dependent-variable history
(`SingleArcDynamicsSimulator` is absent from the sources; only its caller
in the control-surface propagation test is available). -/
def propagate {σ : Type} (stepper : ℚ → ℚ → σ → σ) (angleCalc : AngleCalculator)
    (machOf : σ → ℚ) (momentOf forceOf : σ → Fin 3 → ℚ) :
    ℕ → ℚ → ℚ → σ → VehicleSystems → List (ℚ × σ) × List (ℚ × List ℚ)
  | 0, _, _, _, _ => ([], [])
  | n + 1, t, dt, s, vs =>
    let t1 := t + dt
    let s1 := stepper t dt s
    let vs1 := updateGuidance t1 vs
    let entry := assembleEntry
      (environmentAt angleCalc machOf momentOf forceOf t1 s1 vs1) testDependentVariables
    let rest := propagate stepper angleCalc machOf momentOf forceOf n t1 dt s1 vs1
    ((t1, s1) :: rest.1, (t1, entry) :: rest.2)

/-- The time keys a run of the propagation loop records: `n` post-step
times starting from `t`, spaced `dt` apart. -/
def timesFrom (t dt : ℚ) : ℕ → List ℚ
  | 0 => []
  | n + 1 => (t + dt) :: timesFrom (t + dt) dt n

/-- The position part (first three components) of a 6-element state
vector. -/
def positionPart (stateVector : Fin 6 → ℝ) : Vec3 :=
fun i => stateVector ⟨i.val, by omega⟩

/-- Modelled from the spec: `Gravity::computeForce` — only its declaration
is in the sources (gravity.h); per its documentation, the force per unit
mass is "computed from gravity field and position", i.e. the attached
gravity-field model evaluated at the position part of the 6-element state
vector. -/
def Gravity.computeForce (fieldAccel : Vec3 → Vec3) (stateVector : Fin 6 → ℝ) : Vec3 :=
fieldAccel (positionPart stateVector)

/-- A sample body map with distinct gravitational parameters, used to
instantiate the builder theorems on concrete inputs. -/
def sampleBodyMap : String → Body
  | "Mars" => ⟨4, fun _ => 2, fun _ _ => 0⟩
  | "Sun" => ⟨10, fun _ => 0, fun _ _ => 0⟩
  | "Jupiter" => ⟨7, fun _ => 5, fun _ _ => 0⟩
  | _ => ⟨0, fun _ => 0, fun _ _ => 0⟩

/-- C4: for every acceleration model and every time t, calling update(t) a
second time when the model was already updated at exactly time t is a
no-op, and the acceleration subsequently read back is identical to the one
after the first update, the dependency-body states being fixed. -/
theorem update_idempotent (computeAcceleration : ℚ → Fin 3 → ℚ) (t : ℚ)
    (s : AccelerationModelState) :
    updateModel computeAcceleration t (updateModel computeAcceleration t s) =
      updateModel computeAcceleration t s ∧
    getAcceleration (updateModel computeAcceleration t (updateModel computeAcceleration t s)) =
      getAcceleration (updateModel computeAcceleration t s) := by
  have h1 : (updateModel computeAcceleration t s).currentTime = some t := by
    by_cases h : s.currentTime = some t <;> simp [updateModel, h]
  have h2 : updateModel computeAcceleration t (updateModel computeAcceleration t s) =
      updateModel computeAcceleration t s := by
    rw [updateModel, if_pos h1]
  exact ⟨h2, congrArg getAcceleration h2⟩

/-- C1: in the acceleration-model map builder, for a settings entry whose
exerting body is the configured central body of the target, the constructed
point-mass model uses μ(exerter) + μ(target); when the central body is the
barycentric/inertial origin (and the exerter is not that origin — the
origin is not a body), only μ(exerter) is used. -/
theorem builder_combined_mu (bodyOf : String → Body) (target exerter central : String) :
    (exerter = central →
      createAccelerationModel bodyOf target exerter central .centralGravity =
        .pointMass ((bodyOf exerter).mu + (bodyOf target).mu)
          (bodyOf target).pos (bodyOf exerter).pos) ∧
    (central = inertialOrigin → exerter ≠ inertialOrigin →
      createAccelerationModel bodyOf target exerter central .centralGravity =
        .pointMass (bodyOf exerter).mu (bodyOf target).pos (bodyOf exerter).pos) := by
  constructor
  · intro h
    simp [createAccelerationModel, h, mkDirect, combinedMu]
  · intro h1 h2
    simp [createAccelerationModel, h1, mkDirect, combinedMu, h2]

/-- Witness for C1 at a concrete configuration: Mars attracted by the Sun
with the Sun as central body gets the combined parameter; Mars attracted by
Jupiter with the barycenter as origin gets Jupiter's parameter alone. -/
theorem builder_combined_mu_witness :
    createAccelerationModel sampleBodyMap "Mars" "Sun" "Sun" .centralGravity =
      .pointMass ((sampleBodyMap "Sun").mu + (sampleBodyMap "Mars").mu)
        (sampleBodyMap "Mars").pos (sampleBodyMap "Sun").pos ∧
    createAccelerationModel sampleBodyMap "Mars" "Jupiter" "SSB" .centralGravity =
      .pointMass (sampleBodyMap "Jupiter").mu
        (sampleBodyMap "Mars").pos (sampleBodyMap "Jupiter").pos :=
  ⟨(builder_combined_mu sampleBodyMap "Mars" "Sun" "Sun").1 rfl,
   (builder_combined_mu sampleBodyMap "Mars" "Jupiter" "SSB").2 rfl (by decide)⟩

/-- C2: the builder constructs a direct model when the target's central
body is the inertial origin or equals the exerter; otherwise it wraps the
direct model in a third-body acceleration whose value is the direct
sub-model's acceleration minus the central body's independently constructed
sub-model against the same exerter. -/
theorem builder_third_body (bodyOf : String → Body) (target exerter central : String)
    (s : AccelerationSettings) :
    ((central = inertialOrigin ∨ central = exerter) →
      createAccelerationModel bodyOf target exerter central s =
        mkDirect bodyOf target exerter central s) ∧
    (central ≠ inertialOrigin → central ≠ exerter →
      createAccelerationModel bodyOf target exerter central s =
        .thirdBody (mkDirect bodyOf target exerter central s)
          (mkDirect bodyOf central exerter central s) ∧
      ∀ (higher : ℕ → ℕ → Vec3) (i : Fin 3),
        (createAccelerationModel bodyOf target exerter central s).eval higher i =
          (mkDirect bodyOf target exerter central s).eval higher i -
            (mkDirect bodyOf central exerter central s).eval higher i) := by
  constructor
  · intro h
    simp [createAccelerationModel, h]
  · intro h1 h2
    have hc : ¬(central = inertialOrigin ∨ central = exerter) := by
      rintro (h | h) <;> [exact h1 h; exact h2 h]
    refine ⟨by simp [createAccelerationModel, hc], fun higher i => ?_⟩
    simp [createAccelerationModel, hc, AccelModel.eval]

/-- Witness for C2 at a concrete configuration: a barycentric central body
gives the direct model; Jupiter perturbing Sun-centered Mars gives the
third-body wrapper around the two Jupiter-exerted sub-models. -/
theorem builder_third_body_witness :
    createAccelerationModel sampleBodyMap "Mars" "Sun" "SSB" .centralGravity =
      mkDirect sampleBodyMap "Mars" "Sun" "SSB" .centralGravity ∧
    createAccelerationModel sampleBodyMap "Mars" "Jupiter" "Sun" .centralGravity =
      .thirdBody (mkDirect sampleBodyMap "Mars" "Jupiter" "Sun" .centralGravity)
        (mkDirect sampleBodyMap "Sun" "Jupiter" "Sun" .centralGravity) :=
  ⟨(builder_third_body sampleBodyMap "Mars" "Sun" "SSB" .centralGravity).1 (Or.inl rfl),
   ((builder_third_body sampleBodyMap "Mars" "Jupiter" "Sun" .centralGravity).2
      (by decide) (by decide)).1⟩

/-- C5: a spherical-harmonics acceleration model configured with maximum
degree 0 and order 0 (the degree-0 cosine coefficient being 1) returns, for
every relative position, the same acceleration as a central point-mass
model with the same gravitational parameter. -/
theorem sh_degenerate (higher : ℕ → ℕ → Vec3) (mu : ℝ)
    (cosineCoefficients : ℕ → ℕ → ℝ) (posTarget posExerter : Vec3)
    (h : cosineCoefficients 0 0 = 1) :
    shAccel higher mu cosineCoefficients 0 0 posTarget posExerter =
      pointMassAccel mu posTarget posExerter := by
  have h00 : shAccel higher mu cosineCoefficients 0 0 posTarget posExerter =
      shTerm higher mu cosineCoefficients posTarget posExerter 0 0 := by
    simp [shAccel]
  rw [h00]
  funext i
  simp [shTerm, pointMassAccel, h]

/-- Witness for C5 at a concrete configuration (μ = 1, unit coefficient,
unit relative position). -/
theorem sh_degenerate_witness :
    shAccel (fun _ _ _ => 0) 1 (fun _ _ => 1) 0 0 (fun _ => 1) (fun _ => 0) =
      pointMassAccel 1 (fun _ => 1) (fun _ => 0) :=
  sh_degenerate (fun _ _ _ => 0) 1 (fun _ _ => 1) (fun _ => 1) (fun _ => 0) rfl

/-- C3: for every combination of body independent variables and
control-surface independent variables, the force and moment coefficients of
an interface with a control-surface increment installed equal those of the
identical interface without increments plus the increment function's output
at the surface-specific independent variables (force components 0–2, moment
components 3–5 of the 6-vector increment); in this exact-arithmetic model
the additivity is exact, hence within the 1e-14 tolerance. -/
theorem increments_additive (forceC momentC : List ℚ → Fin 3 → ℚ)
    (incr : List ℚ → Fin 6 → ℚ) (surface : String)
    (indep : List ℚ) (surfaceIndep : String → List ℚ) (i : Fin 3) :
    currentForceCoefficients ⟨forceC, momentC, [(surface, incr)]⟩ indep surfaceIndep i =
      currentForceCoefficients ⟨forceC, momentC, []⟩ indep surfaceIndep i +
        incr (surfaceIndep surface) ⟨i.val, by omega⟩ ∧
    currentMomentCoefficients ⟨forceC, momentC, [(surface, incr)]⟩ indep surfaceIndep i =
      currentMomentCoefficients ⟨forceC, momentC, []⟩ indep surfaceIndep i +
        incr (surfaceIndep surface) ⟨i.val + 3, by omega⟩ := by
  constructor <;> simp [currentForceCoefficients, currentMomentCoefficients]

/-- C7: a recorded dependent-variable entry for the declared request list
is the concatenation of the requested variables' values in declaration
order — mach number at index 0, angle of attack at 1, sideslip at 2,
control-surface deflection at 3, moment coefficients at 4–6, force
coefficients at 7–9. -/
theorem history_entry_layout (env : AeroEnv) :
    assembleEntry env testDependentVariables =
      [env.machNumber, env.angleOfAttack, env.angleOfSideslip, env.surfaceDeflection,
        env.momentCoefficientValues 0, env.momentCoefficientValues 1,
        env.momentCoefficientValues 2,
        env.forceCoefficientValues 0, env.forceCoefficientValues 1,
        env.forceCoefficientValues 2] ∧
    (assembleEntry env testDependentVariables).getD 0 0 = env.machNumber ∧
    (assembleEntry env testDependentVariables).getD 1 0 = env.angleOfAttack ∧
    (assembleEntry env testDependentVariables).getD 2 0 = env.angleOfSideslip ∧
    (assembleEntry env testDependentVariables).getD 3 0 = env.surfaceDeflection ∧
    (∀ j : Fin 3, (assembleEntry env testDependentVariables).getD (4 + j.val) 0 =
      env.momentCoefficientValues j) ∧
    (∀ j : Fin 3, (assembleEntry env testDependentVariables).getD (7 + j.val) 0 =
      env.forceCoefficientValues j) := by
  refine ⟨rfl, rfl, rfl, rfl, rfl, ?_, ?_⟩ <;> (intro j; fin_cases j <;> rfl)

/-- C10: `Gravity::computeForce` returns the same force-per-unit-mass
vector for any two 6-element state vectors agreeing in their position part:
the velocity components have no influence. -/
theorem computeForce_velocity_independent (fieldAccel : Vec3 → Vec3)
    (s1 s2 : Fin 6 → ℝ) (h : ∀ i : Fin 3, positionPart s1 i = positionPart s2 i) :
    Gravity.computeForce fieldAccel s1 = Gravity.computeForce fieldAccel s2 := by
  unfold Gravity.computeForce
  exact congrArg fieldAccel (funext h)

/-- Witness for C10 at a concrete pair of states sharing the position part
but with different velocity components. -/
theorem computeForce_velocity_independent_witness :
    Gravity.computeForce (fun v => v) (fun _ => 0) =
      Gravity.computeForce (fun v => v) (fun j => if j.val < 3 then 0 else 1) :=
  computeForce_velocity_independent (fun v => v) (fun _ => 0)
    (fun j => if j.val < 3 then 0 else 1)
    (fun i => by simp [positionPart, i.isLt])

/-- Setting a control-surface deflection and reading the same surface back
yields the value just set. -/
theorem getCurrent_setCurrent (vs : VehicleSystems) (name : String) (v : ℚ) :
    getCurrentControlSurfaceDeflection
      (setCurrentControlSurfaceDeflection vs name v) name = v := by
  simp [getCurrentControlSurfaceDeflection, setCurrentControlSurfaceDeflection, List.find?]

/-- Both histories a propagation run records carry exactly the post-step
times. -/
theorem propagate_times {σ : Type} (stepper : ℚ → ℚ → σ → σ)
    (angleCalc : AngleCalculator) (machOf : σ → ℚ) (momentOf forceOf : σ → Fin 3 → ℚ)
    (n : ℕ) : ∀ (t dt : ℚ) (s : σ) (vs : VehicleSystems),
    (propagate stepper angleCalc machOf momentOf forceOf n t dt s vs).1.map Prod.fst =
      timesFrom t dt n ∧
    (propagate stepper angleCalc machOf momentOf forceOf n t dt s vs).2.map Prod.fst =
      timesFrom t dt n := by
  induction n with
  | zero => intro t dt s vs; simp [propagate, timesFrom]
  | succ n ih =>
    intro t dt s vs
    have h := ih (t + dt) dt (stepper t dt s) (updateGuidance (t + dt) vs)
    simp [propagate, timesFrom, h.1, h.2]

/-- Every recorded time of a positive-step run lies strictly after the
start time of the run. -/
theorem mem_timesFrom_gt (dt : ℚ) (hdt : 0 < dt) :
    ∀ (n : ℕ) (t x : ℚ), x ∈ timesFrom t dt n → t < x := by
  intro n
  induction n with
  | zero => intro t x hx; simp [timesFrom] at hx
  | succ n ih =>
    intro t x hx
    simp only [timesFrom, List.mem_cons] at hx
    rcases hx with h | h
    · rw [h]; linarith
    · have := ih (t + dt) x h; linarith

/-- The recorded times of a positive-step run are strictly increasing. -/
theorem timesFrom_sorted (dt : ℚ) (hdt : 0 < dt) :
    ∀ (n : ℕ) (t : ℚ), List.Pairwise (· < ·) (timesFrom t dt n) := by
  intro n
  induction n with
  | zero => intro t; simp [timesFrom]
  | succ n ih =>
    intro t
    refine List.Pairwise.cons ?_ (ih (t + dt))
    intro x hx
    exact mem_timesFrom_gt dt hdt n (t + dt) x hx

/-- C8: for every completed propagation with a positive step, the recorded
state history and dependent-variable history have strictly increasing time
keys, in insertion order. -/
theorem history_times_increasing {σ : Type} (stepper : ℚ → ℚ → σ → σ)
    (angleCalc : AngleCalculator) (machOf : σ → ℚ) (momentOf forceOf : σ → Fin 3 → ℚ)
    (n : ℕ) (t dt : ℚ) (s : σ) (vs : VehicleSystems) (hdt : 0 < dt) :
    List.Pairwise (· < ·)
      ((propagate stepper angleCalc machOf momentOf forceOf n t dt s vs).1.map Prod.fst) ∧
    List.Pairwise (· < ·)
      ((propagate stepper angleCalc machOf momentOf forceOf n t dt s vs).2.map Prod.fst) := by
  have h := propagate_times stepper angleCalc machOf momentOf forceOf n t dt s vs
  rw [h.1, h.2]
  exact ⟨timesFrom_sorted dt hdt n t, timesFrom_sorted dt hdt n t⟩

/-- Witness for C8 on a concrete three-step run with unit step size. -/
theorem history_times_increasing_witness :
    List.Pairwise (· < ·)
      ((propagate (fun _ _ (s : Unit) => s) ⟨none, none, none⟩ (fun _ => 0)
        (fun _ _ => 0) (fun _ _ => 0) 3 0 1 () ⟨[]⟩).1.map Prod.fst) ∧
    List.Pairwise (· < ·)
      ((propagate (fun _ _ (s : Unit) => s) ⟨none, none, none⟩ (fun _ => 0)
        (fun _ _ => 0) (fun _ _ => 0) 3 0 1 () ⟨[]⟩).2.map Prod.fst) :=
  history_times_increasing (fun _ _ (s : Unit) => s) ⟨none, none, none⟩ (fun _ => 0)
    (fun _ _ => 0) (fun _ _ => 0) 3 0 1 () ⟨[]⟩ (by norm_num)

/-- C6: every entry of the dependent-variable history records, at index 3,
a control-surface deflection equal to the prescribed deterministic law
evaluated at the entry's recorded time; in this exact-arithmetic model the
match is exact, hence within the 1e-14 tolerance. -/
theorem deflection_matches_law {σ : Type} (stepper : ℚ → ℚ → σ → σ)
    (angleCalc : AngleCalculator) (machOf : σ → ℚ) (momentOf forceOf : σ → Fin 3 → ℚ)
    (n : ℕ) (t dt : ℚ) (s : σ) (vs : VehicleSystems) (p : ℚ × List ℚ)
    (hp : p ∈ (propagate stepper angleCalc machOf momentOf forceOf n t dt s vs).2) :
    p.2.getD 3 0 = surfaceDeflectionLaw p.1 := by
  revert hp
  induction n generalizing t s vs with
  | zero => intro hp; simp [propagate] at hp
  | succ n ih =>
    intro hp
    simp only [propagate, List.mem_cons] at hp
    rcases hp with h | h
    · subst h; rfl
    · exact ih _ _ _ h

/-- Witness for C6: the single entry of a one-step run records the law's
value at the post-step time. -/
theorem deflection_matches_law_witness :
    ((0 : ℚ) + 1,
      assembleEntry (environmentAt ⟨none, none, none⟩ (fun _ : Unit => 0) (fun _ _ => 0)
        (fun _ _ => 0) (0 + 1) () (updateGuidance (0 + 1) ⟨[]⟩))
        testDependentVariables).2.getD 3 0 =
      surfaceDeflectionLaw ((0 : ℚ) + 1,
        assembleEntry (environmentAt ⟨none, none, none⟩ (fun _ : Unit => 0) (fun _ _ => 0)
          (fun _ _ => 0) (0 + 1) () (updateGuidance (0 + 1) ⟨[]⟩))
          testDependentVariables).1 :=
  deflection_matches_law (fun _ _ s => s) ⟨none, none, none⟩ (fun _ => 0) (fun _ _ => 0)
    (fun _ _ => 0) 1 0 1 () ⟨[]⟩ _ (List.mem_cons_self _ _)

/-- C9: an unbound orientation-angle accessor defaults to zero, and with no
sideslip accessor bound to the angle calculator, every recorded
dependent-variable entry carries a zero angle of sideslip at index 2. -/
theorem unbound_sideslip_zero {σ : Type} (stepper : ℚ → ℚ → σ → σ)
    (aoaFn bankFn : Option (ℚ → ℚ)) (machOf : σ → ℚ) (momentOf forceOf : σ → Fin 3 → ℚ)
    (n : ℕ) (t dt : ℚ) (s : σ) (vs : VehicleSystems) :
    (∀ u : ℚ, getOrientationAngle none u = 0) ∧
    ∀ p ∈ (propagate stepper ⟨aoaFn, none, bankFn⟩ machOf momentOf forceOf n t dt s vs).2,
      p.2.getD 2 0 = (0 : ℚ) := by
  refine ⟨fun u => rfl, ?_⟩
  induction n generalizing t s vs with
  | zero => intro p hp; simp [propagate] at hp
  | succ n ih =>
    intro p hp
    simp only [propagate, List.mem_cons] at hp
    rcases hp with h | h
    · subst h; rfl
    · exact ih _ _ _ p h

/-- Witness for C9: the single entry of a one-step run with an unbound
sideslip accessor records a zero sideslip angle. -/
theorem unbound_sideslip_zero_witness :
    ((0 : ℚ) + 1,
      assembleEntry (environmentAt ⟨some (fun u => u), none, none⟩ (fun _ : Unit => 0)
        (fun _ _ => 0) (fun _ _ => 0) (0 + 1) () (updateGuidance (0 + 1) ⟨[]⟩))
        testDependentVariables).2.getD 2 0 = (0 : ℚ) :=
  (unbound_sideslip_zero (fun _ _ s => s) (some (fun u => u)) none (fun _ => 0)
    (fun _ _ => 0) (fun _ _ => 0) 1 0 1 () ⟨[]⟩).2 _ (List.mem_cons_self _ _)

end Tudat
